import Mathlib

/-
Verification of the Tomasulo-with-speculation simulator (src/FINAL-main.py).
The Python source is embedded shallowly: every definition below mirrors a
function or code block of the source, with Python runtime exceptions modelled
by Option (none = the interpreter raises and the program dies).
-/

namespace Tomasulo

/-! ## Python string primitives used by the source -/

/-- Digits of a decimal literal folded into a Nat; none on a non-digit.
Models int(s) on a string of decimal digits. -/
def natFromDigits : List Char → Nat → Option Nat
  | [], acc => some acc
  | c :: cs, acc =>
    if c.isDigit then natFromDigits cs (acc * 10 + (c.toNat - 48)) else none

/-- Python int(s) for a register index; none models ValueError.
Signs and surrounding whitespace are not produced by the inputs the source
feeds this (register indexes after dropping the leading R). -/
def pyNat (s : String) : Option Nat :=
  match s.toList with
  | [] => none
  | l => natFromDigits l 0

/-- Python int(s) for a displacement, allowing a leading minus sign. -/
def pyInt (s : String) : Option Int :=
  match s.toList with
  | [] => none
  | '-' :: rest =>
    match rest with
    | [] => none
    | _ => (natFromDigits rest 0).map (fun n => -(n : Int))
  | l => (natFromDigits l 0).map (fun n => (n : Int))

/-- Whitespace split with no empty pieces: Python str.split(). -/
def splitWS : List Char → List Char → List String
  | [], acc => if acc.isEmpty then [] else [String.mk acc.reverse]
  | c :: cs, acc =>
    if c.isWhitespace then
      if acc.isEmpty then splitWS cs [] else String.mk acc.reverse :: splitWS cs []
    else splitWS cs (c :: acc)

def pySplit (s : String) : List String := splitWS s.toList []

def dropTrailing (c : Char) (l : List Char) : List Char :=
  (l.reverse.dropWhile (· = c)).reverse

/-- Python s.strip(c): remove leading and trailing runs of the character. -/
def pyStripChar (c : Char) (s : String) : String :=
  String.mk (dropTrailing c (s.toList.dropWhile (· = c)))

/-- Python sep.split on a single character: "4(R2)".split('(') = ["4", "R2)"]. -/
def splitOnChar (sep : Char) : List Char → List (List Char)
  | [] => [[]]
  | c :: cs =>
    if c = sep then [] :: splitOnChar sep cs
    else
      match splitOnChar sep cs with
      | [] => [[c]]
      | t :: ts => (c :: t) :: ts

/-- Python substring containment: sub in hay. -/
def listHasPrefixOf : List Char → List Char → Bool
  | [], _ => true
  | _ :: _, [] => false
  | a :: as, b :: bs => a = b && listHasPrefixOf as bs

def listHasInfixOf (sub : List Char) : List Char → Bool
  | [] => listHasPrefixOf sub []
  | c :: t => listHasPrefixOf sub (c :: t) || listHasInfixOf sub t

def pyInStr (sub hay : String) : Bool := listHasInfixOf sub.toList hay.toList

/-! ## Data model (source lines 7-133) -/

/-- Source class Instruction (lines 39-42). -/
structure Instruction where
  operation : String
  operands : List String
deriving Repr, DecidableEq

/-- Source parse_instruction (lines 45-49); none models the IndexError that a
fully blank line would raise on parts[0] (load_program filters those out). -/
def parseInstruction (line : String) : Option Instruction :=
  match pySplit line with
  | [] => none
  | op :: rest => some ⟨op, rest.map (pyStripChar ',')⟩

/-- Source load_program (lines 52-62) over the lines of an already opened
file: blank lines are skipped, every other line is parsed unconditionally. -/
def loadProgram (lines : List String) : List Instruction :=
  lines.filterMap parseInstruction

/-- Source class RegisterFile (lines 7-25): values plus per-register status
tag, None meaning ready. -/
structure RegisterFile where
  values : List Int
  status : List (Option String)
deriving Repr, DecidableEq

/-- Source reservation-station slot dictionary (line 84). -/
structure Station where
  busy : Bool
  op : Option String
  Vj : Option Int
  Vk : Option Int
  Qj : Option String
  Qk : Option String
  cyclesLeft : Int
deriving Repr, DecidableEq

def emptyStation : Station := ⟨false, none, none, none, none, none, 0⟩

/-- Source class ReservationStation (lines 79-107). -/
structure ReservationStation where
  name : String
  executionCycles : Int
  stations : List Station
deriving Repr, DecidableEq

def ReservationStation.isAvailable (p : ReservationStation) : Bool :=
  p.stations.any (fun st => !st.busy)

/-- Source ReservationStation.allocate (lines 90-95): first free slot is
filled; with no free slot the pool is returned unchanged (the caller guards
with is_available and ignores the returned handle). -/
def allocStations (L : Int) (op : String) (vj vk : Option Int)
    (qj qk : Option String) : List Station → List Station
  | [] => []
  | st :: sts =>
    if !st.busy then
      ⟨true, some op, vj, vk, qj, qk, L⟩ :: sts
    else st :: allocStations L op vj vk qj qk sts

def ReservationStation.allocate (p : ReservationStation) (op : String)
    (vj vk : Option Int) (qj qk : Option String) : ReservationStation :=
  { p with stations := allocStations p.executionCycles op vj vk qj qk p.stations }

/-- Source reorder-buffer entry dictionary (line 112). -/
structure RobEntry where
  busy : Bool
  instruction : Option String
  state : String
  result : Option Int
deriving Repr, DecidableEq

/-- Source ReorderBuffer.add (lines 115-120): first non-busy entry is taken;
returns its index (none when the buffer is full) with the updated buffer. -/
def robAddLoop (op : Option String) : List RobEntry → Option Nat × List RobEntry
  | [] => (none, [])
  | e :: es =>
    if !e.busy then (some 0, ⟨true, op, "issue", none⟩ :: es)
    else
      let (i, es') := robAddLoop op es
      (i.map (· + 1), e :: es')

def robMarkWrite : List RobEntry → Nat → List RobEntry
  | [], _ => []
  | e :: es, 0 => { e with state := "write" } :: es
  | e :: es, n + 1 => e :: robMarkWrite es n

/-- Per-instruction metadata record (created at issue, source line 289 etc.). -/
structure MetaEntry where
  instruction : String
  issued : Int
  start_exec : Option Int
  finish_exec : Option Int
  write_exec : Option Int
  commit : Option Int
deriving Repr, DecidableEq

/-- The source updates the first metadata record whose instruction name
matches and whose selected field is still unset (lines 176-179 etc.). -/
def setMetaField (opq : Option String) (sel : MetaEntry → Option Int)
    (upd : MetaEntry → MetaEntry) : List MetaEntry → List MetaEntry
  | [] => []
  | m :: ms =>
    if some m.instruction = opq ∧ sel m = none then upd m :: ms
    else m :: setMetaField opq sel upd ms

def setStart (c : Int) (opq : Option String) : List MetaEntry → List MetaEntry :=
  setMetaField opq (fun m => m.start_exec) (fun m => { m with start_exec := some c })

def setFinish (c : Int) (opq : Option String) : List MetaEntry → List MetaEntry :=
  setMetaField opq (fun m => m.finish_exec) (fun m => { m with finish_exec := some c })

def setWrite (c : Int) (opq : Option String) : List MetaEntry → List MetaEntry :=
  setMetaField opq (fun m => m.write_exec) (fun m => { m with write_exec := some c })

def setCommit (c : Int) (opq : Option String) : List MetaEntry → List MetaEntry :=
  setMetaField opq (fun m => m.commit) (fun m => { m with commit := some c })

/-- Source ReorderBuffer.commit (lines 122-132): the first busy entry in index
order whose state is write commits; its metadata commit cycle is recorded. -/
def robCommitLoop (cycle : Int) :
    List RobEntry → List MetaEntry → Bool × List RobEntry × List MetaEntry
  | [], meta => (false, [], meta)
  | e :: es, meta =>
    if e.busy ∧ e.state = "write" then
      (true, { e with state := "commit", busy := false } :: es, setCommit cycle e.instruction meta)
    else
      let (b, es', m') := robCommitLoop cycle es meta
      (b, e :: es', m')

/-! ## Operand resolution (source lines 135-163) -/

/-- First operand (the destination register): returns (Vj, Qj).
The source also receives the dependency table and the current instruction
but reads neither. none models a Python exception (IndexError on operands[0]
or on the register lists, ValueError from int). -/
def resolveFirst (rf : RegisterFile) (operands : List String) :
    Option (Option Int × Option String) := do
  let op0 ← operands[0]?
  let r0 ← pyNat (String.mk (op0.toList.drop 1))
  let st0 ← rf.status[r0]?
  match st0 with
  | none => (rf.values[r0]?).map (fun v => (some v, (none : Option String)))
  | some t => pure ((none : Option Int), some t)

/-- Second operand: plain register or base-displacement offset(Rn);
returns (Vk, Qk). Absent second operand leaves both None. -/
def resolveSecond (rf : RegisterFile) (operands : List String) :
    Option (Option Int × Option String) :=
  match operands[1]? with
  | none => some (none, none)
  | some opnd =>
    if opnd.toList.contains '(' then
      match splitOnChar '(' opnd.toList with
      | [off, regPart] => do
        let regTok := dropTrailing ')' (regPart.dropWhile (· = ')'))
        let r1 ← pyNat (String.mk (regTok.drop 1))
        let st1 ← rf.status[r1]?
        match st1 with
        | none => do
          let v ← rf.values[r1]?
          let offv ← pyInt (String.mk off)
          pure (some (v + offv), (none : Option String))
        | some t => pure ((none : Option Int), some t)
      | _ => none
    else do
      let r1 ← pyNat (String.mk (opnd.toList.drop 1))
      let st1 ← rf.status[r1]?
      match st1 with
      | none => (rf.values[r1]?).map (fun v => (some v, (none : Option String)))
      | some t => pure ((none : Option Int), some t)

/-- Source resolve_operands: the (Vj, Qj) and (Vk, Qk) computations of the
source body are independent, so the function is their pairing. -/
def resolveOperands (rf : RegisterFile) (operands : List String) :
    Option (Option Int × Option Int × Option String × Option String) := do
  let (vj, qj) ← resolveFirst rf operands
  let (vk, qk) ← resolveSecond rf operands
  pure (vj, vk, qj, qk)

/-! ## Simulator state (source lines 248-271) -/

structure SimState where
  rf : RegisterFile
  depW : List (Option String)
  depR : List (Option String)
  rob : List RobEntry
  iq : List Instruction
  stalled : List Instruction
  loadStation : ReservationStation
  addStation : ReservationStation
  storeStation : ReservationStation
  multStation : ReservationStation
  branchStation : ReservationStation
  callRetStation : ReservationStation
  nandStation : ReservationStation
  cycle : Int
  meta : List MetaEntry
deriving Repr, DecidableEq

def mkPool (name : String) (slots : Nat) (latency : Int) : ReservationStation :=
  ⟨name, latency, List.replicate slots emptyStation⟩

/-- Initial state of the main block (lines 248-271) for a given program. -/
def initState (prog : List Instruction) : SimState where
  rf := ⟨List.replicate 8 0, List.replicate 8 none⟩
  depW := List.replicate 8 none
  depR := List.replicate 8 none
  rob := List.replicate 6 ⟨false, none, "issue", none⟩
  iq := prog
  stalled := []
  loadStation := mkPool "LOAD" 2 6
  addStation := mkPool "ADD/ADDI" 4 2
  storeStation := mkPool "STORE" 1 6
  multStation := mkPool "MULT" 1 8
  branchStation := mkPool "BEQ" 2 3
  callRetStation := mkPool "CALL/RET" 2 4
  nandStation := mkPool "NAND" 2 1
  cycle := 1
  meta := []

/-! ## Issue (source lines 281-365) -/

/-- One metadata record created at issue. -/
def issueMeta (s : SimState) (op : String) : List MetaEntry :=
  s.meta ++ [⟨op, s.cycle, none, none, none, none⟩]

/-- The if/elif issue chain, shared by the stalled-retry block (281-317) and
the fetch block (329-362). The two differ in one place only: on the NAND
branch the retry block calls the station object itself (line 315), a Python
TypeError, modelled by none. Branch bodies for LOAD and ADD/ADDI re-parse
operands[0] exactly as the source does (a failure there is unreachable once
resolve_operands has succeeded). Note the source tags destinations with the
literals LOAD and ADD while the pool names are LOAD and ADD/ADDI, and the
NAND guard is Python substring containment, both reproduced faithfully. -/
def tryIssue (isRetry : Bool) (s : SimState) (instr : Instruction)
    (vj vk : Option Int) (qj qk : Option String) : Option (Bool × SimState) :=
  if instr.operation = "LOAD" ∧ s.loadStation.isAvailable = true ∧ qj = none ∧ qk = none then do
    let op0 ← instr.operands[0]?
    let r ← pyNat (String.mk (op0.toList.drop 1))
    pure (true, { s with
      loadStation := s.loadStation.allocate instr.operation vj vk qj qk
      rf := { s.rf with status := s.rf.status.set r (some "LOAD") }
      depW := s.depW.set r (some instr.operation)
      meta := issueMeta s instr.operation })
  else if instr.operation = "STORE" ∧ s.storeStation.isAvailable = true ∧ qj = none ∧ qk = none then
    some (true, { s with
      storeStation := s.storeStation.allocate instr.operation vj vk qj qk
      meta := issueMeta s instr.operation })
  else if (instr.operation = "ADD" ∨ instr.operation = "ADDI") ∧ s.addStation.isAvailable = true ∧ qj = none ∧ qk = none then do
    let op0 ← instr.operands[0]?
    let r ← pyNat (String.mk (op0.toList.drop 1))
    pure (true, { s with
      addStation := s.addStation.allocate instr.operation vj vk qj qk
      rf := { s.rf with status := s.rf.status.set r (some "ADD") }
      depW := s.depW.set r (some instr.operation)
      meta := issueMeta s instr.operation })
  else if instr.operation = "MULT" ∧ s.multStation.isAvailable = true ∧ qj = none ∧ qk = none then
    some (true, { s with
      multStation := s.multStation.allocate instr.operation vj vk qj qk
      meta := issueMeta s instr.operation })
  else if instr.operation = "BEQ" ∧ s.branchStation.isAvailable = true ∧ qj = none ∧ qk = none then
    some (true, { s with
      branchStation := s.branchStation.allocate instr.operation vj vk qj qk
      meta := issueMeta s instr.operation })
  else if (instr.operation = "CALL" ∨ instr.operation = "RET") ∧ s.callRetStation.isAvailable = true ∧ qj = none ∧ qk = none then
    some (true, { s with
      callRetStation := s.callRetStation.allocate instr.operation vj vk qj qk
      meta := issueMeta s instr.operation })
  else if pyInStr instr.operation "NAND" = true ∧ s.nandStation.isAvailable = true ∧ qj = none ∧ qk = none then
    if isRetry then none
    else
      some (true, { s with
        nandStation := s.nandStation.allocate instr.operation vj vk qj qk
        meta := issueMeta s instr.operation })
  else
    some (false, s)

/-- Stalled-instruction retry (lines 280-321): instructions are retried in
queue order against the evolving state; the ones that fail remain, in order. -/
def retryLoop : List Instruction → SimState → List Instruction →
    Option (SimState × List Instruction)
  | [], s, rem => some (s, rem)
  | i :: is, s, rem => do
    let (vj, vk, qj, qk) ← resolveOperands s.rf i.operands
    let (issued, s') ← tryIssue true s i vj vk qj qk
    retryLoop is s' (if issued then rem else rem ++ [i])

def retryPhase (s : SimState) : Option SimState := do
  let (s', rem) ← retryLoop s.stalled s []
  pure { s' with stalled := rem }

/-- Fetch and issue one instruction (lines 324-365). -/
def fetchPhase (s : SimState) : Option SimState :=
  match s.iq with
  | [] => some s
  | i :: rest => do
    let s0 := { s with iq := rest }
    let (vj, vk, qj, qk) ← resolveOperands s0.rf i.operands
    let (issued, s') ← tryIssue false s0 i vj vk qj qk
    pure (if issued then s' else { s' with stalled := s'.stalled ++ [i] })

/-! ## Execute, write back and hand to the reorder buffer (source lines 166-214) -/

/-- The write-back loop of execute_and_commit (lines 190-202): every register
whose status equals the completing pool NAME receives the placeholder 42 and
has its status and write dependency cleared. The three lists are walked in
parallel (all have length 8 in the simulator). The inner loop over the
stalled queue (lines 199-202) is omitted: its guard compares a table cell
that only ever holds None against an Instruction object, which is always
false in Python, so its body is unreachable. -/
def writeBackLoop (name : String) :
    List Int → List (Option String) → List (Option String) →
    List Int × List (Option String) × List (Option String)
  | v :: vs, s :: ss, d :: ds =>
    let (vs', ss', ds') := writeBackLoop name vs ss ds
    if s = some name then (42 :: vs', none :: ss', none :: ds')
    else (v :: vs', s :: ss', d :: ds')
  | vs, ss, ds => (vs, ss, ds)

/-- Context threaded through execute_and_commit besides the stations. -/
structure ExecCtx where
  rf : RegisterFile
  depW : List (Option String)
  rob : List RobEntry
  meta : List MetaEntry
deriving Repr, DecidableEq

/-- The per-station body of execute_and_commit (lines 167-214): skip when a
tag is pending; record start when the countdown is full; decrement; on zero
record finish, write back, add a reorder-buffer entry marked write, record
the write cycle when the buffer was not full, and release the slot. -/
def execOneStation (name : String) (execCycles cycle : Int)
    (st : Station) (ctx : ExecCtx) : Station × ExecCtx :=
  if st.busy then
    if st.Qj ≠ none ∨ st.Qk ≠ none then (st, ctx)
    else
      let meta1 := if st.cyclesLeft = execCycles then setStart cycle st.op ctx.meta else ctx.meta
      let cl := st.cyclesLeft - 1
      if cl = 0 then
        let meta2 := setFinish cycle st.op meta1
        let (vals, stats, dws) := writeBackLoop name ctx.rf.values ctx.rf.status ctx.depW
        let (idx, rob1) := robAddLoop st.op ctx.rob
        match idx with
        | some i => (emptyStation, ⟨⟨vals, stats⟩, dws, robMarkWrite rob1 i, setWrite cycle st.op meta2⟩)
        | none => (emptyStation, ⟨⟨vals, stats⟩, dws, rob1, meta2⟩)
      else ({ st with cyclesLeft := cl }, { ctx with meta := meta1 })
  else (st, ctx)

/-- execute_and_commit iterates the stations of one pool in slot order,
threading the shared state. -/
def execStations (name : String) (execCycles cycle : Int) :
    List Station → ExecCtx → List Station × ExecCtx
  | [], ctx => ([], ctx)
  | st :: sts, ctx =>
    let (st', ctx') := execOneStation name execCycles cycle st ctx
    let (sts', ctx'') := execStations name execCycles cycle sts ctx'
    (st' :: sts', ctx'')

def execPool (cycle : Int) (p : ReservationStation) (ctx : ExecCtx) :
    ReservationStation × ExecCtx :=
  let (sts, ctx') := execStations p.name p.executionCycles cycle p.stations ctx
  ({ p with stations := sts }, ctx')

/-- The seven execute_and_commit calls of the main loop (lines 368-374), in
source order: load, add, store, mult, branch, call/ret, nand. -/
def execPhase (s : SimState) : SimState :=
  let c0 : ExecCtx := ⟨s.rf, s.depW, s.rob, s.meta⟩
  let (ld, c1) := execPool s.cycle s.loadStation c0
  let (ad, c2) := execPool s.cycle s.addStation c1
  let (st, c3) := execPool s.cycle s.storeStation c2
  let (mu, c4) := execPool s.cycle s.multStation c3
  let (br, c5) := execPool s.cycle s.branchStation c4
  let (cr, c6) := execPool s.cycle s.callRetStation c5
  let (nd, c7) := execPool s.cycle s.nandStation c6
  { s with
    rf := c7.rf
    depW := c7.depW
    rob := c7.rob
    meta := c7.meta
    loadStation := ld
    addStation := ad
    storeStation := st
    multStation := mu
    branchStation := br
    callRetStation := cr
    nandStation := nd }

/-- reorder_buffer.commit call of the main loop (line 377). -/
def commitPhase (s : SimState) : SimState :=
  let (_, rob', meta') := robCommitLoop s.cycle s.rob s.meta
  { s with rob := rob', meta := meta' }

/-! ## The scheduler loop (source lines 273-380) -/

def stationBusy (p : ReservationStation) : Bool :=
  p.stations.any (fun st => st.busy)

/-- The while condition at line 273: run while the queue is non-empty, the
stall list is non-empty, or some slot of some pool is busy. -/
def loopCond (s : SimState) : Bool :=
  !s.iq.isEmpty || !s.stalled.isEmpty ||
    stationBusy s.loadStation || stationBusy s.addStation ||
    stationBusy s.storeStation || stationBusy s.multStation ||
    stationBusy s.branchStation || stationBusy s.callRetStation ||
    stationBusy s.nandStation

/-- One iteration of the while body; none models a Python runtime error. -/
def step (s : SimState) : Option SimState := do
  let s1 ← retryPhase s
  let s2 ← fetchPhase s1
  let s3 := execPhase s2
  let s4 := commitPhase s3
  pure { s4 with cycle := s4.cycle + 1 }

/-- n raw iterations of the while body, ignoring the loop condition. -/
def stepN : Nat → SimState → Option SimState
  | 0, s => some s
  | n + 1, s => (step s).bind (stepN n)

/-- The while loop itself, with fuel: iterate the body while the condition
holds. -/
def run : Nat → SimState → Option SimState
  | 0, s => some s
  | n + 1, s => if loopCond s then (step s).bind (run n) else some s

/-! ## Derived characterisations used by the theorems -/

/-- What one call of execute_and_commit does to a single slot, read off from
execOneStation: skip when waiting on a tag, otherwise decrement, and release
on reaching zero. It never writes Vj, Vk, Qj or Qk of a surviving slot. -/
def stationStep (st : Station) : Station :=
  if st.busy then
    if st.Qj ≠ none ∨ st.Qk ≠ none then st
    else if st.cyclesLeft - 1 = 0 then emptyStation
    else { st with cyclesLeft := st.cyclesLeft - 1 }
  else st

/-- The scheduler applies execute_and_commit to each pool once per cycle
(lines 368-374); runSolo iterates that per-cycle advance on one pool for a
given number of cycles, starting at a given cycle number. -/
def runSolo (name : String) (L : Int) : Nat → Int → List Station → ExecCtx →
    List Station × ExecCtx
  | 0, _, sts, ctx => (sts, ctx)
  | k + 1, c, sts, ctx =>
    let (sts', ctx') := execStations name L c sts ctx
    runSolo name L k (c + 1) sts' ctx'

/-- Every busy slot of a pool has both operand tags clear. -/
def poolInv (p : ReservationStation) : Prop :=
  ∀ st ∈ p.stations, st.busy = true → st.Qj = none ∧ st.Qk = none

def invState (s : SimState) : Prop :=
  poolInv s.loadStation ∧ poolInv s.addStation ∧ poolInv s.storeStation ∧
  poolInv s.multStation ∧ poolInv s.branchStation ∧ poolInv s.callRetStation ∧
  poolInv s.nandStation

def invOpt : Option SimState → Prop
  | none => True
  | some s => invState s

/-- The loop body keeps succeeding and the loop condition keeps holding:
the simulation neither terminates nor raises. -/
def loopsForever (s : SimState) : Prop :=
  ∀ n : Nat, ∃ s', stepN n s = some s' ∧ loopCond s' = true

/-! ## Concrete programs used as inputs -/

def progC1 : List Instruction := loadProgram ["MULT R1, R2, R3", "NAND R4, R5, R6"]

def progC2 : List Instruction := loadProgram ["LOAD R1, 0(R2)"]

def progC3 : List Instruction := loadProgram ["LOAD R1, 0(R3)", "LOAD R2, 0(R3)"]

def progC4 : List Instruction := loadProgram
  ["LOAD R1, 0(R0)", "ADD R1, R2", "BEQ R0, R0", "BEQ R0, R0",
   "CALL R0", "RET R0", "ADD R3, R4"]

def progStuck : List Instruction := loadProgram ["SUB R1, R2"]

def subInstr : Instruction := ⟨"SUB", ["R1", "R2"]⟩

/-- The state the simulator settles into on progStuck: the unknown mnemonic
sits on the stall queue while only the cycle counter moves. -/
def sStuck (n : Int) : SimState :=
  { initState progStuck with iq := [], stalled := [subInstr], cycle := n }

def addInstr : Instruction := ⟨"ADD", ["R1", "R2"]⟩

/-- A state whose next instruction writes R1 while R1 already carries an
outstanding producer tag. -/
def c5S : SimState :=
  { initState [addInstr] with
    rf := ⟨List.replicate 8 0, (List.replicate 8 (none : Option String)).set 1 (some "LOAD")⟩ }

/-! ## Helper lemmas -/

theorem tryIssue_stalls (b : Bool) (s : SimState) (instr : Instruction)
    (vj vk : Option Int) (t : String) (qk : Option String) :
    tryIssue b s instr vj vk (some t) qk = some (false, s) := by
  simp [tryIssue]

theorem tryIssue_stalls_qk (b : Bool) (s : SimState) (instr : Instruction)
    (vj vk : Option Int) (qj : Option String) (t : String) :
    tryIssue b s instr vj vk qj (some t) = some (false, s) := by
  simp [tryIssue]

theorem stuck_step (n : Int) : step (sStuck n) = some (sStuck (n + 1)) := rfl

theorem stuck_stepN : ∀ (k : Nat) (n : Int), stepN k (sStuck n) = some (sStuck (n + k))
  | 0, n => by simp [stepN]
  | k + 1, n => by
    show (step (sStuck n)).bind (stepN k) = some (sStuck (n + (k + 1 : Nat)))
    rw [stuck_step, Option.some_bind, stuck_stepN k (n + 1)]
    congr 1
    push_cast
    ring_nf

theorem stuck_forever : loopsForever (initState progStuck) := by
  intro n
  cases n with
  | zero => exact ⟨initState progStuck, rfl, rfl⟩
  | succ k =>
    refine ⟨sStuck (2 + k), ?_, rfl⟩
    show (step (initState progStuck)).bind (stepN k) = some (sStuck (2 + k))
    have h1 : step (initState progStuck) = some (sStuck 2) := rfl
    rw [h1, Option.some_bind]
    exact stuck_stepN k 2

theorem writeBackLoop_status (name : String) :
    ∀ (vs : List Int) (ss ds : List (Option String)),
      vs.length = ss.length → ds.length = ss.length →
      (writeBackLoop name vs ss ds).2.1
        = ss.map (fun st => if st = some name then none else st) := by
  intro vs
  induction vs with
  | nil =>
    intro ss ds h1 h2
    cases ss with
    | nil =>
      cases ds with
      | nil => rfl
      | cons d ds' => simp at h2
    | cons s ss' => simp at h1
  | cons v vs ih =>
    intro ss ds h1 h2
    cases ss with
    | nil => simp at h1
    | cons s ss' =>
      cases ds with
      | nil => simp at h2
      | cons d ds' =>
        simp only [writeBackLoop, List.map]
        rw [ih ss' ds' (by simpa using h1) (by simpa using h2)]
        by_cases hs : s = some name <;> simp [hs]

theorem writeBackLoop_values (name : String) :
    ∀ (vs : List Int) (ss ds : List (Option String)),
      vs.length = ss.length → ds.length = ss.length →
      (writeBackLoop name vs ss ds).1
        = (vs.zip ss).map (fun p => if p.2 = some name then 42 else p.1) := by
  intro vs
  induction vs with
  | nil =>
    intro ss ds h1 h2
    cases ss with
    | nil =>
      cases ds with
      | nil => rfl
      | cons d ds' => simp at h2
    | cons s ss' => simp at h1
  | cons v vs ih =>
    intro ss ds h1 h2
    cases ss with
    | nil => simp at h1
    | cons s ss' =>
      cases ds with
      | nil => simp at h2
      | cons d ds' =>
        simp only [writeBackLoop, List.zip_cons_cons, List.map]
        rw [ih ss' ds' (by simpa using h1) (by simpa using h2)]
        by_cases hs : s = some name <;> simp [hs, List.zip]

theorem writeBackLoop_get (name : String) (vs : List Int) (ss ds : List (Option String))
    (i : Nat) (sti : Option String)
    (h1 : vs.length = ss.length) (h2 : ds.length = ss.length) (hss : ss[i]? = some sti) :
    (writeBackLoop name vs ss ds).2.1[i]? = some (if sti = some name then none else sti) ∧
    (writeBackLoop name vs ss ds).1[i]? = (if sti = some name then some 42 else vs[i]?) := by
  have hi : i < ss.length := by
    have := List.getElem?_eq_some.mp hss
    exact this.1
  have hiv : i < vs.length := h1 ▸ hi
  have hv : vs[i]? = some vs[i] := List.getElem?_eq_getElem hiv
  constructor
  · rw [writeBackLoop_status name vs ss ds h1 h2, List.getElem?_map, hss]
    rfl
  · rw [writeBackLoop_values name vs ss ds h1 h2, List.getElem?_map]
    have hzip : (vs.zip ss)[i]? = some (vs[i], sti) := by
      rw [List.getElem?_zip_eq_some]
      exact ⟨hv, hss⟩
    rw [hzip]
    by_cases hs : sti = some name <;> simp [hs, hv.symm]

theorem execOneStation_fst (name : String) (L c : Int) (st : Station) (ctx : ExecCtx) :
    (execOneStation name L c st ctx).1 = stationStep st := by
  simp only [execOneStation, stationStep]
  split
  · split
    · rfl
    · split
      · split <;> rfl
      · rfl
  · rfl

theorem execStations_fst (name : String) (L c : Int) :
    ∀ (sts : List Station) (ctx : ExecCtx),
      (execStations name L c sts ctx).1 = sts.map stationStep := by
  intro sts
  induction sts with
  | nil => intro ctx; rfl
  | cons st rest ih =>
    intro ctx
    show (execOneStation name L c st ctx).1
        :: (execStations name L c rest (execOneStation name L c st ctx).2).1
      = stationStep st :: rest.map stationStep
    rw [execOneStation_fst, ih]

theorem setStart_start_some (c a : Int) (op : String) (i : Int) (f w cm : Option Int) :
    setStart c (some op) [⟨op, i, some a, f, w, cm⟩] = [⟨op, i, some a, f, w, cm⟩] := by
  simp [setStart, setMetaField]

theorem setStart_singleton (c : Int) (op : String) (i : Int) :
    setStart c (some op) [⟨op, i, none, none, none, none⟩]
      = [⟨op, i, some c, none, none, none⟩] := by
  simp [setStart, setMetaField]

theorem setFinish_singleton (c a : Int) (op : String) (i : Int) (w : Option Int) :
    setFinish c (some op) [⟨op, i, some a, none, w, none⟩]
      = [⟨op, i, some a, some c, w, none⟩] := by
  simp [setFinish, setMetaField]

theorem setWrite_singleton (c a fc : Int) (op : String) (i : Int) (w : Option Int) :
    ∃ w', setWrite c (some op) [⟨op, i, some a, some fc, w, none⟩]
      = [⟨op, i, some a, some fc, w', none⟩] := by
  cases w with
  | none => exact ⟨some c, by simp [setWrite, setMetaField]⟩
  | some x => exact ⟨some x, by simp [setWrite, setMetaField]⟩

theorem execStations_single_running (name : String) (L c i a : Int) (op : String)
    (vj vk : Option Int) (rf : RegisterFile) (dws : List (Option String))
    (rob : List RobEntry) (w : Option Int) (cl : Int) (hcl : cl - 1 ≠ 0) :
    execStations name L c [⟨true, some op, vj, vk, none, none, cl⟩]
        ⟨rf, dws, rob, [⟨op, i, some a, none, w, none⟩]⟩
      = ([⟨true, some op, vj, vk, none, none, cl - 1⟩],
         ⟨rf, dws, rob, [⟨op, i, some a, none, w, none⟩]⟩) := by
  simp only [execStations, execOneStation, setStart_start_some]
  simp [hcl]

theorem execStations_single_complete (name : String) (L c i a : Int) (op : String)
    (vj vk : Option Int) (rf : RegisterFile) (dws : List (Option String))
    (rob : List RobEntry) (w : Option Int) :
    ∃ w', (execStations name L c [⟨true, some op, vj, vk, none, none, 1⟩]
            ⟨rf, dws, rob, [⟨op, i, some a, none, w, none⟩]⟩).2.meta
          = [⟨op, i, some a, some c, w', none⟩] := by
  simp only [execStations, execOneStation, setStart_start_some]
  norm_num
  rw [setFinish_singleton]
  rcases h : robAddLoop (some op) rob with ⟨_ | idx, rob1⟩
  · exact ⟨w, by simp [h]⟩
  · obtain ⟨w', hw⟩ := setWrite_singleton c a c op i w
    exact ⟨w', by simp [h, hw]⟩

theorem execStations_single_start (name : String) (c i : Int) (op : String)
    (vj vk : Option Int) (rf : RegisterFile) (dws : List (Option String))
    (rob : List RobEntry) (LL : Int) (hLL : LL - 1 ≠ 0) :
    execStations name LL c [⟨true, some op, vj, vk, none, none, LL⟩]
        ⟨rf, dws, rob, [⟨op, i, none, none, none, none⟩]⟩
      = ([⟨true, some op, vj, vk, none, none, LL - 1⟩],
         ⟨rf, dws, rob, [⟨op, i, some c, none, none, none⟩]⟩) := by
  simp only [execStations, execOneStation, setStart_singleton]
  simp [hLL]

theorem execStations_single_start_complete (name : String) (c i : Int) (op : String)
    (vj vk : Option Int) (rf : RegisterFile) (dws : List (Option String))
    (rob : List RobEntry) :
    ∃ w', (execStations name 1 c [⟨true, some op, vj, vk, none, none, 1⟩]
            ⟨rf, dws, rob, [⟨op, i, none, none, none, none⟩]⟩).2.meta
          = [⟨op, i, some c, some c, w', none⟩] := by
  simp only [execStations, execOneStation, setStart_singleton]
  norm_num
  rw [setFinish_singleton]
  rcases h : robAddLoop (some op) rob with ⟨_ | idx, rob1⟩
  · exact ⟨none, by simp [h]⟩
  · obtain ⟨w', hw⟩ := setWrite_singleton c c c op i none
    exact ⟨w', by simp [h, hw]⟩

theorem runSolo_countdown :
    ∀ (j : Nat), 1 ≤ j →
    ∀ (name : String) (L c i a : Int) (op : String) (vj vk : Option Int)
      (rf : RegisterFile) (dws : List (Option String)) (rob : List RobEntry) (w : Option Int),
    ∃ w', (runSolo name L j c [⟨true, some op, vj, vk, none, none, (j : Int)⟩]
            ⟨rf, dws, rob, [⟨op, i, some a, none, w, none⟩]⟩).2.meta
          = [⟨op, i, some a, some (c + (j : Int) - 1), w', none⟩] := by
  intro j
  induction j with
  | zero => omega
  | succ j ih =>
    intro _ name L c i a op vj vk rf dws rob w
    cases j with
    | zero =>
      show ∃ w', (execStations name L c [⟨true, some op, vj, vk, none, none, ((1 : Nat) : Int)⟩]
          ⟨rf, dws, rob, [⟨op, i, some a, none, w, none⟩]⟩).2.meta
        = [⟨op, i, some a, some (c + ((1 : Nat) : Int) - 1), w', none⟩]
      rw [Nat.cast_one]
      have : c + 1 - 1 = c := by ring
      rw [this]
      exact execStations_single_complete name L c i a op vj vk rf dws rob w
    | succ jj =>
      have hcl : ((jj + 2 : Nat) : Int) - 1 ≠ 0 := by push_cast; omega
      show ∃ w', (runSolo name L (jj + 1) (c + 1)
          (execStations name L c [⟨true, some op, vj, vk, none, none, ((jj + 2 : Nat) : Int)⟩]
            ⟨rf, dws, rob, [⟨op, i, some a, none, w, none⟩]⟩).1
          (execStations name L c [⟨true, some op, vj, vk, none, none, ((jj + 2 : Nat) : Int)⟩]
            ⟨rf, dws, rob, [⟨op, i, some a, none, w, none⟩]⟩).2).2.meta
        = [⟨op, i, some a, some (c + ((jj + 2 : Nat) : Int) - 1), w', none⟩]
      rw [execStations_single_running name L c i a op vj vk rf dws rob w _ hcl]
      have hc2 : ((jj + 2 : Nat) : Int) - 1 = ((jj + 1 : Nat) : Int) := by push_cast; ring
      rw [hc2]
      have harith : (c + 1) + ((jj + 1 : Nat) : Int) - 1 = c + ((jj + 2 : Nat) : Int) - 1 := by
        push_cast; ring
      rw [← harith]
      exact ih (by omega) name L (c + 1) i a op vj vk rf dws rob w

/-! ## Claim theorems -/

/-- C1: the claim says instructions issued earlier commit no later, with only
the oldest WriteBack reorder-buffer entry committing. The code allocates the
reorder-buffer entry only at write-back (line 205), so commits follow
completion order: on the program MULT then NAND, the NAND (issued cycle 2)
commits at cycle 2 while the MULT (issued cycle 1) commits at cycle 8. -/
theorem c1_commit_out_of_order :
    (run 30 (initState progC1)).map (fun s => s.meta)
      = some [⟨"MULT", 1, some 1, some 8, some 8, some 8⟩,
              ⟨"NAND", 2, some 2, some 2, some 2, some 2⟩] := rfl

/-- C2: the claim says a reorder-buffer entry and a reservation-station slot
are both allocated at issue, atomically. In the code no reorder-buffer entry
exists at issue: after the issue cycle of a lone LOAD the slot is busy and
the issue timestamp is recorded, yet all six buffer entries are free; the
entry appears only at write-back (cycle 6, immediately committed). -/
theorem c2_no_rob_entry_at_issue :
    (stepN 1 (initState progC2)).map
        (fun s => (s.loadStation.stations.map (fun st => st.busy),
                   s.meta.map (fun m => (m.instruction, m.issued)),
                   s.rob.map (fun e => e.busy)))
      = some ([true, false], [("LOAD", 1)], [false, false, false, false, false, false]) ∧
    (stepN 6 (initState progC2)).map
        (fun s => s.rob.map (fun e => (e.busy, e.instruction, e.state)))
      = some [(false, some "LOAD", "commit"), (false, none, "issue"), (false, none, "issue"),
              (false, none, "issue"), (false, none, "issue"), (false, none, "issue")] :=
  ⟨rfl, rfl⟩

/-- C3 counterexample: with two LOADs in flight (destinations R1 and R2), the
first completion at cycle 6 writes 42 into BOTH registers and clears both
status tags, although the second LOAD (slot 1) is still busy: the broadcast
is not limited to the one register belonging to the completing instruction,
and no reservation-station operand is resolved by it. -/
theorem c3_broadcast_counterexample :
    (stepN 6 (initState progC3)).map
        (fun s => (s.rf.values, s.rf.status,
                   s.loadStation.stations.map (fun st => (st.busy, st.op))))
      = some ([0, 42, 42, 0, 0, 0, 0, 0],
              [none, none, none, none, none, none, none, none],
              [(false, none), (true, some "LOAD")]) := rfl

/-- C4 counterexample: two ADDs issued in the same cycle (one from the stall
queue, one fetched) both reach zero in cycle 8 and BOTH write back in cycle
8 from the same pool, contradicting the one-broadcast-per-pool-per-cycle
rule and the held complete-but-unbroadcast state. -/
theorem c4_multiple_broadcasts_counterexample :
    (run 40 (initState progC4)).map
        (fun s => s.meta.map (fun m => (m.instruction, m.issued, m.write_exec)))
      = some [("LOAD", 1, some 6), ("BEQ", 3, some 5), ("BEQ", 4, some 6),
              ("CALL", 5, some 8), ("RET", 6, some 9), ("ADD", 7, some 8),
              ("ADD", 7, some 8)] := rfl

/-- C7 counterexample: on a program whose single instruction has the unknown
mnemonic SUB, the stall queue can never drain; the loop body keeps
succeeding (no failure of any kind is raised) and the loop condition stays
true at every future cycle, so the simulator loops forever instead of
raising a diagnosable internal-invariant failure. -/
theorem c7_loops_forever_counterexample : loopsForever (initState progStuck) :=
  stuck_forever

/-- C8 counterexample: the malformed line SUB R1, R2 (unknown mnemonic) is
parsed without any error, is loaded into the program, and after one cycle
sits in the scheduler stall queue: parsing is not fatal and the unknown
mnemonic does reach the scheduler. -/
theorem c8_unknown_mnemonic_counterexample :
    parseInstruction "SUB R1, R2" = some subInstr ∧
    loadProgram ["SUB R1, R2"] = [subInstr] ∧
    (stepN 1 (initState progStuck)).map (fun s => s.stalled) = some [subInstr] :=
  ⟨rfl, rfl, rfl⟩

/-- C7 amended: the loop terminates exactly when the program sequence is
exhausted, the stall queue is empty, and no reservation-station slot of any
pool is busy (the while condition of line 273 is exactly that); but when the
stall queue can never drain, the simulator loops forever: no diagnosable
internal-invariant failure is raised. -/
theorem c7_termination_amended :
    (∀ s : SimState, loopCond s = false ↔
      (s.iq = [] ∧ s.stalled = [] ∧ stationBusy s.loadStation = false ∧
       stationBusy s.addStation = false ∧ stationBusy s.storeStation = false ∧
       stationBusy s.multStation = false ∧ stationBusy s.branchStation = false ∧
       stationBusy s.callRetStation = false ∧ stationBusy s.nandStation = false)) ∧
    loopsForever (initState progStuck) := by
  constructor
  · intro s
    simp [loopCond, List.isEmpty_iff, and_assoc]
  · exact stuck_forever

/-- C8 amended: parsing is not validating: any line that tokenises to a
non-empty token list, whatever its mnemonic or operand count, is parsed into
an instruction (first token as operation, comma-stripped rest as operands)
and handed on; parsing yields nothing only for a blank line. Unknown
mnemonics therefore reach the scheduler (see the counterexample, where SUB
ends on the stall queue). -/
theorem c8_parser_total_amended :
    (∀ (line op : String) (rest : List String),
        pySplit line = op :: rest →
        parseInstruction line = some ⟨op, rest.map (pyStripChar ',')⟩) ∧
    (∀ line : String, parseInstruction line = none ↔ pySplit line = []) := by
  constructor
  · intro line op rest h
    simp [parseInstruction, h]
  · intro line
    unfold parseInstruction
    cases h : pySplit line <;> simp

/-- C8 witness: the amended parser-totality theorem applied to the concrete
malformed line SUB R1, R2. -/
theorem c8_parser_total_amended_witness :
    parseInstruction "SUB R1, R2" = some ⟨"SUB", ["R1,", "R2"].map (pyStripChar ',')⟩ :=
  c8_parser_total_amended.1 "SUB R1, R2" "SUB" ["R1,", "R2"] rfl

/-- C10: write-back matches consumers by pool name. For registers of equal
list lengths (the simulator always has 8 of each), the write-back loop of
execute_and_commit maps every status cell equal to the pool name to cleared
and writes the placeholder 42 into exactly those value cells, leaving all
others unchanged; concretely, on the two-LOAD program the first completion
writes and clears both destinations R1 and R2 at once while the second LOAD
is still busy. -/
theorem c10_pool_name_writeback :
    (∀ (name : String) (vs : List Int) (ss ds : List (Option String)),
        vs.length = ss.length → ds.length = ss.length →
        (writeBackLoop name vs ss ds).2.1
            = ss.map (fun st => if st = some name then none else st) ∧
        (writeBackLoop name vs ss ds).1
            = (vs.zip ss).map (fun p => if p.2 = some name then 42 else p.1)) ∧
    (stepN 6 (initState progC3)).map
        (fun s => (s.rf.values[1]?, s.rf.values[2]?, s.rf.status[1]?, s.rf.status[2]?,
                   s.loadStation.stations.map (fun st => st.busy)))
      = some (some 42, some 42, some none, some none, [false, true]) := by
  constructor
  · intro name vs ss ds h1 h2
    exact ⟨writeBackLoop_status name vs ss ds h1 h2, writeBackLoop_values name vs ss ds h1 h2⟩
  · rfl

/-- C10 witness: the write-back characterisation evaluated on a concrete
register file in which exactly one status cell carries the pool name. -/
theorem c10_pool_name_writeback_witness :
    (writeBackLoop "LOAD" [0, 5] [some "LOAD", none] [none, none]).2.1
        = [some "LOAD", none].map (fun st => if st = some "LOAD" then none else st) ∧
    (writeBackLoop "LOAD" [0, 5] [some "LOAD", none] [none, none]).1
        = ([0, 5].zip [some "LOAD", none]).map (fun p => if p.2 = some "LOAD" then 42 else p.1) :=
  c10_pool_name_writeback.1 "LOAD" [0, 5] [some "LOAD", none] [none, none] rfl rfl

/-- C3 amended: when a functional unit completes, the value 42 is written to
EVERY register whose status equals the completing pool name (each such
status is cleared, all other registers are untouched), and no
reservation-station operand is resolved by the completion: execution
transforms every slot by stationStep, which only skips, decrements or
releases and never writes Vj, Vk, Qj or Qk of a surviving slot. -/
theorem c3_writeback_amended :
    (∀ (name : String) (vs : List Int) (ss ds : List (Option String))
        (i : Nat) (sti : Option String),
        vs.length = ss.length → ds.length = ss.length → ss[i]? = some sti →
        (writeBackLoop name vs ss ds).2.1[i]? = some (if sti = some name then none else sti) ∧
        (writeBackLoop name vs ss ds).1[i]? = (if sti = some name then some 42 else vs[i]?)) ∧
    (∀ (name : String) (L c : Int) (sts : List Station) (ctx : ExecCtx),
        (execStations name L c sts ctx).1 = sts.map stationStep) :=
  ⟨fun name vs ss ds i sti h1 h2 hss => writeBackLoop_get name vs ss ds i sti h1 h2 hss,
   fun name L c => execStations_fst name L c⟩

/-- C3 witness: the amended write-back behaviour evaluated at index 0 of a
concrete register file whose first status cell carries the pool name. -/
theorem c3_writeback_amended_witness :
    (writeBackLoop "LOAD" [0, 5] [some "LOAD", some "X"] [none, none]).2.1[0]?
        = some (if (some "LOAD" : Option String) = some "LOAD" then none else some "LOAD") ∧
    (writeBackLoop "LOAD" [0, 5] [some "LOAD", some "X"] [none, none]).1[0]?
        = (if (some "LOAD" : Option String) = some "LOAD" then some 42 else ([0, 5] : List Int)[0]?) :=
  c3_writeback_amended.1 "LOAD" [0, 5] [some "LOAD", some "X"] [none, none] 0 (some "LOAD") rfl rfl rfl

/-- C4 amended: execute_and_commit processes the slots of a pool in
ascending slot order and transforms each busy operand-resolved slot by the
same rule: a slot whose countdown reaches zero completes, writes back and
is released in that same cycle — EVERY such slot, not at most one per pool
per cycle — and a slot not reaching zero is simply decremented; no
complete-but-unbroadcast hold state exists. -/
theorem c4_every_zero_slot_broadcasts_amended :
    (∀ (name : String) (L c : Int) (sts : List Station) (ctx : ExecCtx),
        (execStations name L c sts ctx).1 = sts.map stationStep) ∧
    (∀ st : Station, st.busy = true → st.Qj = none → st.Qk = none →
        st.cyclesLeft = 1 → stationStep st = emptyStation) ∧
    (∀ st : Station, st.busy = true → st.Qj = none → st.Qk = none →
        st.cyclesLeft - 1 ≠ 0 →
        stationStep st = { st with cyclesLeft := st.cyclesLeft - 1 }) := by
  refine ⟨execStations_fst, ?_, ?_⟩
  · intro st hb hj hk hc
    simp [stationStep, hb, hj, hk, hc]
  · intro st hb hj hk hc
    simp [stationStep, hb, hj, hk, hc]

/-- C4 witness: a busy resolved slot with one cycle left is released by the
per-cycle slot transform. -/
theorem c4_every_zero_slot_broadcasts_amended_witness :
    stationStep ⟨true, some "ADD", some 0, some 0, none, none, 1⟩ = emptyStation :=
  c4_every_zero_slot_broadcasts_amended.2.1
    ⟨true, some "ADD", some 0, some 0, none, none, 1⟩ rfl rfl rfl rfl

/-- C5: single-writer invariant, structurally enforced. A register status
cell is a single optional tag, so at most one producer tag is outstanding
per register by construction; and an instruction whose destination register
(first operand) carries an outstanding tag resolves to Qj = that tag, every
branch of the issue chain then fails (both on retry and on fetch), the
state is left unchanged and the fetched instruction is appended to the
stall queue: the second writer is prevented at issue, never detected after
the fact. -/
theorem c5_single_writer :
    ∀ (b : Bool) (s : SimState) (instr : Instruction) (op0 : String) (rest : List String)
      (more : List Instruction) (k : Nat) (t : String)
      (vj vk : Option Int) (qj qk : Option String),
      s.iq = instr :: more →
      instr.operands = op0 :: rest →
      pyNat (String.mk (op0.toList.drop 1)) = some k →
      s.rf.status[k]? = some (some t) →
      resolveOperands s.rf instr.operands = some (vj, vk, qj, qk) →
      qj = some t ∧ vj = none ∧
      tryIssue b s instr vj vk qj qk = some (false, s) ∧
      fetchPhase s = some { s with iq := more, stalled := s.stalled ++ [instr] } := by
  intro b s instr op0 rest more k t vj vk qj qk hiq hops hk hst hres
  have hk' : pyNat ⟨op0.data.tail⟩ = some k := by simpa using hk
  have hrf : resolveFirst s.rf instr.operands = some (none, some t) := by
    rw [hops]
    simp [resolveFirst, hk', hst]
  rw [resolveOperands, hrf] at hres
  rcases h2 : resolveSecond s.rf instr.operands with _ | ⟨vk0, qk0⟩ <;> rw [h2] at hres
  · simp at hres
  · simp at hres
    obtain ⟨h3, h4, h5, h6⟩ := hres
    subst h3; subst h4; subst h5; subst h6
    refine ⟨rfl, rfl, tryIssue_stalls b s instr none vk0 t qk0, ?_⟩
    have hres' : resolveOperands ({ s with iq := more } : SimState).rf instr.operands
        = some (none, vk0, some t, qk0) := by
      show resolveOperands s.rf instr.operands = _
      rw [resolveOperands, hrf, h2]
      rfl
    simp only [fetchPhase, hiq]
    simp [hres', tryIssue_stalls]

/-- C5 witness: an ADD targeting R1 while R1 carries the tag LOAD resolves
to Qj = LOAD, is not issued, and lands on the stall queue. -/
theorem c5_single_writer_witness :
    (some "LOAD" : Option String) = some "LOAD" ∧ (none : Option Int) = none ∧
    tryIssue false c5S addInstr none (some 0) (some "LOAD") none = some (false, c5S) ∧
    fetchPhase c5S = some { c5S with iq := [], stalled := c5S.stalled ++ [addInstr] } :=
  c5_single_writer false c5S addInstr "R1" ["R2"] [] 1 "LOAD" none (some 0) (some "LOAD") none
    rfl rfl rfl rfl rfl

/-- C6: latency conformance. A freshly allocated slot (countdown equal to
the pool latency L, operands resolved — and once allocated a slot can never
stall, since nothing ever sets its tags) that is advanced by the per-cycle
execute_and_commit pass starting at cycle c records start_exec = c and
finish_exec = c + L - 1 in its metadata record, hence
finish_exec - start_exec + 1 = L. -/
theorem c6_latency_conformance :
    ∀ (L : Nat) (name op : String) (c i : Int) (vj vk : Option Int)
      (rf : RegisterFile) (dws : List (Option String)) (rob : List RobEntry),
      1 ≤ L →
      (∃ w', (runSolo name (L : Int) L c [⟨true, some op, vj, vk, none, none, (L : Int)⟩]
               ⟨rf, dws, rob, [⟨op, i, none, none, none, none⟩]⟩).2.meta
             = [⟨op, i, some c, some (c + (L : Int) - 1), w', none⟩]) ∧
      (c + (L : Int) - 1) - c + 1 = (L : Int) := by
  intro L name op c i vj vk rf dws rob hL
  refine ⟨?_, by ring⟩
  cases L with
  | zero => omega
  | succ j =>
    cases j with
    | zero =>
      show ∃ w', (execStations name ((1 : Nat) : Int) c
          [⟨true, some op, vj, vk, none, none, ((1 : Nat) : Int)⟩]
          ⟨rf, dws, rob, [⟨op, i, none, none, none, none⟩]⟩).2.meta
        = [⟨op, i, some c, some (c + ((1 : Nat) : Int) - 1), w', none⟩]
      rw [Nat.cast_one]
      have : c + 1 - 1 = c := by ring
      rw [this]
      exact execStations_single_start_complete name c i op vj vk rf dws rob
    | succ jj =>
      have hcl : ((jj + 2 : Nat) : Int) - 1 ≠ 0 := by push_cast; omega
      show ∃ w', (runSolo name ((jj + 2 : Nat) : Int) (jj + 1) (c + 1)
          (execStations name ((jj + 2 : Nat) : Int) c
            [⟨true, some op, vj, vk, none, none, ((jj + 2 : Nat) : Int)⟩]
            ⟨rf, dws, rob, [⟨op, i, none, none, none, none⟩]⟩).1
          (execStations name ((jj + 2 : Nat) : Int) c
            [⟨true, some op, vj, vk, none, none, ((jj + 2 : Nat) : Int)⟩]
            ⟨rf, dws, rob, [⟨op, i, none, none, none, none⟩]⟩).2).2.meta
        = [⟨op, i, some c, some (c + ((jj + 2 : Nat) : Int) - 1), w', none⟩]
      rw [execStations_single_start name c i op vj vk rf dws rob _ hcl]
      have hc2 : ((jj + 2 : Nat) : Int) - 1 = ((jj + 1 : Nat) : Int) := by push_cast; ring
      rw [hc2]
      have harith : (c + 1) + ((jj + 1 : Nat) : Int) - 1 = c + ((jj + 2 : Nat) : Int) - 1 := by
        push_cast; ring
      rw [← harith]
      exact runSolo_countdown (jj + 1) (by omega) name _ (c + 1) i c op vj vk rf dws rob none

/-- C6 witness: a two-cycle pool starting at cycle 0 records start 0 and
finish 1, so finish - start + 1 equals the latency 2. -/
theorem c6_latency_conformance_witness :
    (∃ w', (runSolo "P" ((2 : Nat) : Int) 2 0
             [⟨true, some "X", none, none, none, none, ((2 : Nat) : Int)⟩]
             ⟨⟨List.replicate 8 0, List.replicate 8 none⟩, List.replicate 8 none,
              List.replicate 6 ⟨false, none, "issue", none⟩, [⟨"X", 0, none, none, none, none⟩]⟩).2.meta
           = [⟨"X", 0, some 0, some (0 + ((2 : Nat) : Int) - 1), w', none⟩]) ∧
    (0 + ((2 : Nat) : Int) - 1) - 0 + 1 = ((2 : Nat) : Int) :=
  c6_latency_conformance 2 "P" "X" 0 0 none none
    ⟨List.replicate 8 0, List.replicate 8 none⟩ (List.replicate 8 none)
    (List.replicate 6 ⟨false, none, "issue", none⟩) (by omega)

theorem allocStations_inv (L : Int) (op : String) (vj vk : Option Int) :
    ∀ (sts : List Station),
      (∀ st ∈ sts, st.busy = true → st.Qj = none ∧ st.Qk = none) →
      ∀ st ∈ allocStations L op vj vk none none sts,
        st.busy = true → st.Qj = none ∧ st.Qk = none := by
  intro sts
  induction sts with
  | nil => intro _ st hmem; simp [allocStations] at hmem
  | cons s0 rest ih =>
    intro h st hmem
    simp only [allocStations] at hmem
    by_cases hb : s0.busy
    · simp [hb] at hmem
      rcases hmem with hmem | hmem
      · exact h st (by simp [hmem])
      · exact ih (fun u hu => h u (by simp [hu])) st hmem
    · simp [hb] at hmem
      rcases hmem with hmem | hmem
      · subst hmem; intro _; exact ⟨rfl, rfl⟩
      · exact h st (by simp [hmem])

theorem allocate_inv (p : ReservationStation) (op : String) (vj vk : Option Int)
    (h : poolInv p) : poolInv (p.allocate op vj vk none none) :=
  allocStations_inv p.executionCycles op vj vk p.stations h

theorem stationStep_inv (st : Station)
    (h : st.busy = true → st.Qj = none ∧ st.Qk = none) :
    (stationStep st).busy = true → (stationStep st).Qj = none ∧ (stationStep st).Qk = none := by
  unfold stationStep
  split
  · split
    · exact h
    · split
      · simp [emptyStation]
      · exact fun hb => h hb
  · exact h

theorem execPool_inv (c : Int) (p : ReservationStation) (ctx : ExecCtx)
    (h : poolInv p) : poolInv (execPool c p ctx).1 := by
  intro st hmem
  have : (execPool c p ctx).1.stations = p.stations.map stationStep := by
    show (execStations p.name p.executionCycles c p.stations ctx).1 = _
    exact execStations_fst p.name p.executionCycles c p.stations ctx
  rw [this] at hmem
  obtain ⟨st0, hst0, rfl⟩ := List.mem_map.mp hmem
  exact stationStep_inv st0 (h st0 hst0)

theorem execPhase_inv (s : SimState) (h : invState s) : invState (execPhase s) := by
  obtain ⟨i1, i2, i3, i4, i5, i6, i7⟩ := h
  exact ⟨execPool_inv _ _ _ i1, execPool_inv _ _ _ i2, execPool_inv _ _ _ i3,
         execPool_inv _ _ _ i4, execPool_inv _ _ _ i5, execPool_inv _ _ _ i6,
         execPool_inv _ _ _ i7⟩

theorem commitPhase_inv (s : SimState) (h : invState s) : invState (commitPhase s) := h



theorem tryIssue_inv (b : Bool) (s : SimState) (instr : Instruction)
    (vj vk : Option Int) (qj qk : Option String) (issued : Bool) (s' : SimState)
    (h : tryIssue b s instr vj vk qj qk = some (issued, s'))
    (hinv : invState s) : invState s' := by
  obtain ⟨i1, i2, i3, i4, i5, i6, i7⟩ := hinv
  unfold tryIssue at h
  split_ifs at h with h1 h2 h3 h4 h5 h6 h7 h8
  · -- LOAD
    obtain ⟨-, -, hqj, hqk⟩ := h1
    subst hqj; subst hqk
    simp only [Option.bind_eq_bind', Option.bind_eq_some', Option.pure_def,
      Option.some_inj, Prod.mk.injEq] at h
    obtain ⟨op0, -, r, -, -, hs'⟩ := h
    subst hs'
    exact ⟨allocate_inv _ _ _ _ i1, i2, i3, i4, i5, i6, i7⟩
  · -- STORE
    obtain ⟨-, -, hqj, hqk⟩ := h2
    subst hqj; subst hqk
    simp only [Option.some_inj, Prod.mk.injEq] at h
    obtain ⟨-, hs'⟩ := h
    subst hs'
    exact ⟨i1, i2, allocate_inv _ _ _ _ i3, i4, i5, i6, i7⟩
  · -- ADD / ADDI
    obtain ⟨-, -, hqj, hqk⟩ := h3
    subst hqj; subst hqk
    simp only [Option.bind_eq_bind', Option.bind_eq_some', Option.pure_def,
      Option.some_inj, Prod.mk.injEq] at h
    obtain ⟨op0, -, r, -, -, hs'⟩ := h
    subst hs'
    exact ⟨i1, allocate_inv _ _ _ _ i2, i3, i4, i5, i6, i7⟩
  · -- MULT
    obtain ⟨-, -, hqj, hqk⟩ := h4
    subst hqj; subst hqk
    simp only [Option.some_inj, Prod.mk.injEq] at h
    obtain ⟨-, hs'⟩ := h
    subst hs'
    exact ⟨i1, i2, i3, allocate_inv _ _ _ _ i4, i5, i6, i7⟩
  · -- BEQ
    obtain ⟨-, -, hqj, hqk⟩ := h5
    subst hqj; subst hqk
    simp only [Option.some_inj, Prod.mk.injEq] at h
    obtain ⟨-, hs'⟩ := h
    subst hs'
    exact ⟨i1, i2, i3, i4, allocate_inv _ _ _ _ i5, i6, i7⟩
  · -- CALL / RET
    obtain ⟨-, -, hqj, hqk⟩ := h6
    subst hqj; subst hqk
    simp only [Option.some_inj, Prod.mk.injEq] at h
    obtain ⟨-, hs'⟩ := h
    subst hs'
    exact ⟨i1, i2, i3, i4, i5, allocate_inv _ _ _ _ i6, i7⟩
  · -- NAND on the fetch path (the retry path raises, discharged by the split)
    obtain ⟨-, -, hqj, hqk⟩ := h7
    subst hqj; subst hqk
    simp only [Option.some_inj, Prod.mk.injEq] at h
    obtain ⟨-, hs'⟩ := h
    subst hs'
    exact ⟨i1, i2, i3, i4, i5, i6, allocate_inv _ _ _ _ i7⟩
  · -- not issued
    simp only [Option.some_inj, Prod.mk.injEq] at h
    obtain ⟨-, hs'⟩ := h
    subst hs'
    exact ⟨i1, i2, i3, i4, i5, i6, i7⟩



theorem retryLoop_inv :
    ∀ (is : List Instruction) (s : SimState) (rem : List Instruction)
      (out : SimState × List Instruction),
      retryLoop is s rem = some out → invState s → invState out.1 := by
  intro is
  induction is with
  | nil =>
    intro s rem out h hinv
    simp only [retryLoop, Option.some_inj] at h
    rw [← h]
    exact hinv
  | cons i rest ih =>
    intro s rem out h hinv
    simp only [retryLoop, Option.bind_eq_bind', Option.bind_eq_some'] at h
    obtain ⟨⟨vj, vk, qj, qk⟩, -, ⟨issued, s1⟩, hti, hrec⟩ := h
    exact ih s1 _ out hrec (tryIssue_inv true s i vj vk qj qk issued s1 hti hinv)

theorem retryPhase_inv (s s' : SimState) (h : retryPhase s = some s')
    (hinv : invState s) : invState s' := by
  simp only [retryPhase, Option.bind_eq_bind', Option.bind_eq_some'] at h
  obtain ⟨⟨s1, rem⟩, hloop, hp⟩ := h
  simp only [Option.pure_def, Option.some_inj] at hp
  have := retryLoop_inv s.stalled s [] (s1, rem) hloop hinv
  rw [← hp]
  exact this

theorem fetchPhase_inv (s s' : SimState) (h : fetchPhase s = some s')
    (hinv : invState s) : invState s' := by
  unfold fetchPhase at h
  cases hiq : s.iq with
  | nil =>
    rw [hiq] at h
    simp only [Option.some_inj] at h
    rw [← h]
    exact hinv
  | cons i rest =>
    rw [hiq] at h
    simp only [Option.bind_eq_bind', Option.bind_eq_some'] at h
    obtain ⟨⟨vj, vk, qj, qk⟩, -, ⟨issued, s1⟩, hti, hp⟩ := h
    simp only [Option.pure_def, Option.some_inj] at hp
    have h1 : invState s1 :=
      tryIssue_inv false { s with iq := rest } i vj vk qj qk issued s1 hti hinv
    rw [← hp]
    cases issued with
    | true => simpa using h1
    | false => simpa using h1

theorem step_inv (s s' : SimState) (h : step s = some s') (hinv : invState s) :
    invState s' := by
  simp only [step, Option.bind_eq_bind', Option.bind_eq_some'] at h
  obtain ⟨s1, h1, s2, h2, hp⟩ := h
  simp only [Option.pure_def, Option.some_inj] at hp
  have i1 := retryPhase_inv s s1 h1 hinv
  have i2 := fetchPhase_inv s1 s2 h2 i1
  have i3 := commitPhase_inv _ (execPhase_inv _ i2)
  rw [← hp]
  exact i3

theorem stepN_inv : ∀ (n : Nat) (s : SimState), invState s → invOpt (stepN n s) := by
  intro n
  induction n with
  | zero => intro s hinv; exact hinv
  | succ n ih =>
    intro s hinv
    show invOpt ((step s).bind (stepN n))
    cases hst : step s with
    | none => trivial
    | some s1 => exact ih s1 (step_inv s s1 hst hinv)

theorem initState_inv (prog : List Instruction) : invState (initState prog) := by
  refine ⟨?_, ?_, ?_, ?_, ?_, ?_, ?_⟩ <;>
    · intro st hmem
      have := List.eq_of_mem_replicate hmem
      subst this
      intro hb
      simp [emptyStation] at hb

/-! ## Claim theorem for the busy-slot invariant -/

/-- C9: in every reachable state every busy reservation-station slot has
Qj = none and Qk = none. An instruction whose resolution carries any
outstanding producer tag (Qj or Qk) is never issued by either issue path
(the state is returned unchanged, so the caller stalls it), and the
invariant holds after any number of scheduler cycles from the initial state
of any program: no allocated slot ever waits on a tag. -/
theorem c9_busy_slots_resolved :
    (∀ (b : Bool) (s : SimState) (instr : Instruction) (vj vk : Option Int)
        (t : String) (qk : Option String),
        tryIssue b s instr vj vk (some t) qk = some (false, s)) ∧
    (∀ (b : Bool) (s : SimState) (instr : Instruction) (vj vk : Option Int)
        (qj : Option String) (t : String),
        tryIssue b s instr vj vk qj (some t) = some (false, s)) ∧
    (∀ (prog : List Instruction) (n : Nat), invOpt (stepN n (initState prog))) :=
  ⟨tryIssue_stalls, tryIssue_stalls_qk,
   fun prog n => stepN_inv n (initState prog) (initState_inv prog)⟩

end Tomasulo
